import Mathlib

/-!
# policy-bot: the `check_run` webhook handler

A shallow embedding of `server/handler/check_run.go`.

* Go pointers (`*T`) are `Option T`; a nil pointer is `none`.
* The go-github accessors (`GetID`, `GetRepo`, ...) are nil-safe: on a nil
  receiver or a nil field they return the zero value (`0`, `""`, nil).
* `int64` identifiers and `int` numbers are `Int`.  The failure counter is a
  `Nat`: it is incremented at most once per element of a slice, and a Go slice
  never holds more than `MaxInt` elements, so the counter cannot wrap.
* The collaborators that live outside the handler (JSON decoding, installation
  lookup, context preparation, `Base.Evaluate`) are parameters.  The evaluator
  is a state-passing function, so that it may answer differently on every call.
* A run of the handler is recorded as its outcome together with the ordered
  trace of its observable effects (evaluator calls and log entries).
-/

namespace PolicyBot

/-! ## The go-github data model -/

namespace github

/-- The `github.User` fields read by the handler. -/
structure User where
  Login : Option String
deriving DecidableEq, Repr

/-- The `github.Repository` fields read by the handler. -/
structure Repository where
  ID : Option Int
  Owner : Option User
  Name : Option String
  URL : Option String
deriving DecidableEq, Repr

/-- The `github.PullRequestBranch` fields read by the handler. -/
structure PullRequestBranch where
  Repo : Option Repository
deriving DecidableEq, Repr

/-- The `github.PullRequest` fields read by the handler. -/
structure PullRequest where
  Number : Option Int
  Base : Option PullRequestBranch
deriving DecidableEq, Repr

/-- The `github.CheckRun` fields read by the handler; `PullRequests` is a slice
of pointers, so an entry may be nil. -/
structure CheckRun where
  HeadSHA : Option String
  Conclusion : Option String
  PullRequests : List (Option PullRequest)
deriving DecidableEq, Repr

/-- The `github.Installation` field read through the installation lookup. -/
structure Installation where
  ID : Option Int
deriving DecidableEq, Repr

/-- The `github.CheckRunEvent` fields read by the handler. -/
structure CheckRunEvent where
  CheckRun : Option CheckRun
  Action : Option String
  Repo : Option Repository
  Installation : Option Installation
deriving DecidableEq, Repr

/-- Accessor `(*User).GetLogin`: empty string on a nil receiver or nil field. -/
def User.GetLogin (u : Option User) : String :=
  match u with
  | none => ""
  | some u => u.Login.getD ""

/-- Accessor `(*Repository).GetID`: zero on a nil receiver or nil field. -/
def Repository.GetID (r : Option Repository) : Int :=
  match r with
  | none => 0
  | some r => r.ID.getD 0

/-- Accessor `(*Repository).GetOwner`: nil on a nil receiver. -/
def Repository.GetOwner (r : Option Repository) : Option User :=
  match r with
  | none => none
  | some r => r.Owner

/-- Accessor `(*Repository).GetName`: empty string on a nil receiver or nil field. -/
def Repository.GetName (r : Option Repository) : String :=
  match r with
  | none => ""
  | some r => r.Name.getD ""

/-- Accessor `(*Repository).GetURL`: empty string on a nil receiver or nil field. -/
def Repository.GetURL (r : Option Repository) : String :=
  match r with
  | none => ""
  | some r => r.URL.getD ""

/-- Accessor `(*PullRequestBranch).GetRepo`: nil on a nil receiver. -/
def PullRequestBranch.GetRepo (b : Option PullRequestBranch) : Option Repository :=
  match b with
  | none => none
  | some b => b.Repo

/-- Accessor `(*PullRequest).GetBase`: nil on a nil receiver. -/
def PullRequest.GetBase (p : Option PullRequest) : Option PullRequestBranch :=
  match p with
  | none => none
  | some p => p.Base

/-- Accessor `(*PullRequest).GetNumber`: zero on a nil receiver or nil field. -/
def PullRequest.GetNumber (p : Option PullRequest) : Int :=
  match p with
  | none => 0
  | some p => p.Number.getD 0

/-- Accessor `(*CheckRun).GetConclusion`: empty string on a nil receiver or nil field. -/
def CheckRun.GetConclusion (c : Option CheckRun) : String :=
  match c with
  | none => ""
  | some c => c.Conclusion.getD ""

/-- Accessor `(*CheckRun).GetHeadSHA`: empty string on a nil receiver or nil field. -/
def CheckRun.GetHeadSHA (c : Option CheckRun) : String :=
  match c with
  | none => ""
  | some c => c.HeadSHA.getD ""

/-- Accessor `(*CheckRunEvent).GetAction` on the (non-nil) address of the event. -/
def CheckRunEvent.GetAction (e : CheckRunEvent) : String :=
  e.Action.getD ""

/-- Accessor `(*CheckRunEvent).GetCheckRun` on the (non-nil) address of the event. -/
def CheckRunEvent.GetCheckRun (e : CheckRunEvent) : Option github.CheckRun :=
  e.CheckRun

/-- Accessor `(*CheckRunEvent).GetRepo` on the (non-nil) address of the event. -/
def CheckRunEvent.GetRepo (e : CheckRunEvent) : Option github.Repository :=
  e.Repo

end github

/-! ## Values exchanged with the collaborators -/

namespace common

/-- Modelled from the spec: the trigger kinds of `policy/common`, a closed
enumeration that tells status-based triggers from comment, review and other
triggers; the declaration is not part of the handler file. -/
inductive Trigger where
  | TriggerCommit
  | TriggerComment
  | TriggerReview
  | TriggerLabel
  | TriggerStatus
  | TriggerPullRequest
deriving DecidableEq, Repr

end common

namespace pull

/-- The `pull.Locator` literal built by the handler; `Value` holds the pull
request pointer of the event. -/
structure Locator where
  Owner : String
  Repo : String
  Number : Int
  Value : Option github.PullRequest
deriving DecidableEq, Repr

end pull

namespace handler

/-- A Go `error` as the handler produces it.  `external` is an error value
received from a collaborator, `wrap` is `errors.Wrap(cause, msg)` and `errorf`
is the result of `errors.Errorf` with the format already applied. -/
inductive GoError (ε : Type) where
  | external (e : ε)
  | wrap (cause : GoError ε) (msg : String)
  | errorf (msg : String)
deriving DecidableEq, Repr

/-- The text of `err.Error()`, given the text of the collaborators' errors. -/
def GoError.Error {ε : Type} (text : ε → String) : GoError ε → String
  | .external e => text e
  | .wrap cause msg => msg ++ ": " ++ GoError.Error text cause
  | .errorf msg => msg

/-- The function `errors.Cause`: the innermost error of a chain of wraps. -/
def GoError.Cause {ε : Type} : GoError ε → GoError ε
  | .wrap cause _ => GoError.Cause cause
  | e => e

/-- The arguments of one call of `h.Evaluate`. -/
structure EvalCall (Ctx : Type) where
  ctx : Ctx
  installationID : Int
  trigger : common.Trigger
  loc : pull.Locator
deriving DecidableEq

/-- Severity of a log entry. -/
inductive Level where
  | debug
  | error
deriving DecidableEq, Repr

/-- One entry written through the logger: its level, the error attached with
`.Err(err)` if any, and the formatted message. -/
structure LogEntry (ε : Type) where
  level : Level
  err : Option ε
  msg : String
deriving DecidableEq

/-- An observable effect of the handler: the call of
`githubapp.PrepareRepoContext`, a call of `h.Evaluate`, or a log entry. -/
inductive Effect (Ctx ε : Type) where
  | prepareRepoContext (installationID : Int) (repo : Option github.Repository)
  | evaluate (call : EvalCall Ctx)
  | log (entry : LogEntry ε)

/-- The collaborators of the handler.  `Evaluate` is `Base.Evaluate`: it reads
and updates a state of type `σ` and returns `none` for a nil error. -/
structure Base (σ Ctx ε : Type) where
  Unmarshal : List (Fin 256) → Except ε github.CheckRunEvent
  GetInstallationIDFromEvent : github.CheckRunEvent → Int
  PrepareRepoContext : Ctx → Int → Option github.Repository → Ctx
  Evaluate : σ → EvalCall Ctx → Option ε × σ

/-- How a call of the handler ends: it returns an error value (`none` is nil),
or it stops at a nil pointer dereference. -/
inductive Outcome (ε : Type) where
  | returned (err : Option (GoError ε))
  | panicked
deriving DecidableEq, Repr

/-- The variables that change during the loop over the pull requests. -/
structure LoopState (σ Ctx ε : Type) where
  evaluationFailures : Nat
  evaluator : σ
  trace : List (Effect Ctx ε)

/-- A finished call of the handler. -/
structure Run (σ Ctx ε : Type) where
  outcome : Outcome ε
  evaluator : σ
  trace : List (Effect Ctx ε)

/-- The method `CheckRun.Handles`. -/
def Handles : List String := ["check_run"]

/-- The message of the debug entry for a skipped pull request. -/
def skipMsg (number : Int) (url : String) : String :=
  "Skipping pull request '" ++ toString number ++ "' from different repository '" ++ url ++ "'"

/-- The message of the error entry for a failed evaluation. -/
def failMsg (number : Int) (commitSHA : String) : String :=
  "Failed to evaluate pull request '" ++ toString number ++ "' for SHA '" ++ commitSHA ++ "'"

/-- The message of the error returned after the loop. -/
def batchMsg (evaluationFailures : Nat) : String :=
  "failed to evaluate " ++ toString evaluationFailures ++ " pull requests"

/-- The `pull.Locator` literal of the loop body. -/
def mkLocator (ownerName repoName : String) (pr : Option github.PullRequest) : pull.Locator :=
  { Owner := ownerName, Repo := repoName, Number := github.PullRequest.GetNumber pr, Value := pr }

/-- The argument list of the `h.Evaluate` call of the loop body. -/
def mkCall {Ctx : Type} (ctx : Ctx) (installationID : Int) (ownerName repoName : String)
    (pr : Option github.PullRequest) : EvalCall Ctx :=
  { ctx := ctx, installationID := installationID, trigger := common.Trigger.TriggerStatus,
    loc := mkLocator ownerName repoName pr }

/-- One iteration of the loop over `event.GetCheckRun().PullRequests`. -/
def loopBody {σ Ctx ε : Type} (h : Base σ Ctx ε) (ctx : Ctx) (installationID repoID : Int)
    (ownerName repoName commitSHA : String)
    (st : LoopState σ Ctx ε) (pr : Option github.PullRequest) : LoopState σ Ctx ε :=
  let prBaseRepo := github.PullRequestBranch.GetRepo (github.PullRequest.GetBase pr)
  if github.Repository.GetID prBaseRepo ≠ repoID then
    { st with trace := st.trace ++
        [Effect.log { level := Level.debug, err := none,
                      msg := skipMsg (github.PullRequest.GetNumber pr)
                               (github.Repository.GetURL prBaseRepo) }] }
  else
    let call := mkCall ctx installationID ownerName repoName pr
    match h.Evaluate st.evaluator call with
    | (some err, s) =>
      { evaluationFailures := st.evaluationFailures + 1
        evaluator := s
        trace := st.trace ++
          [Effect.evaluate call,
           Effect.log { level := Level.error, err := some err,
                        msg := failMsg (github.PullRequest.GetNumber pr) commitSHA }] }
    | (none, s) =>
      { st with evaluator := s, trace := st.trace ++ [Effect.evaluate call] }

/-- The body of `CheckRun.Handle` after a successful decode. -/
def handleEvent {σ Ctx ε : Type} (h : Base σ Ctx ε) (s : σ) (ctx : Ctx)
    (event : github.CheckRunEvent) : Run σ Ctx ε :=
  if event.GetAction ≠ "completed" ∨
      github.CheckRun.GetConclusion event.GetCheckRun ≠ "success" then
    { outcome := Outcome.returned none, evaluator := s, trace := [] }
  else
    let repo := event.GetRepo
    let repoID := github.Repository.GetID repo
    let ownerName := github.User.GetLogin (github.Repository.GetOwner repo)
    let repoName := github.Repository.GetName repo
    let commitSHA := github.CheckRun.GetHeadSHA event.GetCheckRun
    let installationID := h.GetInstallationIDFromEvent event
    let ctx := h.PrepareRepoContext ctx installationID repo
    -- `event.GetCheckRun().PullRequests` reads a field through the pointer
    match event.GetCheckRun with
    | none =>
      { outcome := Outcome.panicked, evaluator := s
        trace := [Effect.prepareRepoContext installationID repo] }
    | some checkRun =>
      let st : LoopState σ Ctx ε := checkRun.PullRequests.foldl
        (loopBody h ctx installationID repoID ownerName repoName commitSHA)
        { evaluationFailures := 0, evaluator := s
          trace := [Effect.prepareRepoContext installationID repo] }
      if st.evaluationFailures = 0 then
        { outcome := Outcome.returned none, evaluator := st.evaluator, trace := st.trace }
      else
        { outcome := Outcome.returned (some (GoError.errorf (batchMsg st.evaluationFailures)))
          evaluator := st.evaluator, trace := st.trace }

/-- The method `CheckRun.Handle`, started with the evaluator in state `s`. -/
def Handle {σ Ctx ε : Type} (h : Base σ Ctx ε) (s : σ) (ctx : Ctx)
    (_eventType _deliveryID : String) (payload : List (Fin 256)) : Run σ Ctx ε :=
  match h.Unmarshal payload with
  | Except.error err =>
    { outcome := Outcome.returned
        (some (GoError.wrap (GoError.external err) "failed to parse check_run event payload"))
      evaluator := s, trace := [] }
  | Except.ok event => handleEvent h s ctx event

/-! ## Observations on a run -/

/-- The evaluator calls of a trace, in order. -/
def calls {Ctx ε : Type} : List (Effect Ctx ε) → List (EvalCall Ctx)
  | [] => []
  | Effect.prepareRepoContext _ _ :: t => calls t
  | Effect.evaluate c :: t => c :: calls t
  | Effect.log _ :: t => calls t

/-- The log entries of a trace, in order. -/
def logs {Ctx ε : Type} : List (Effect Ctx ε) → List (LogEntry ε)
  | [] => []
  | Effect.prepareRepoContext _ _ :: t => logs t
  | Effect.evaluate _ :: t => logs t
  | Effect.log e :: t => e :: logs t

/-- The filter of the loop: the base repository of the pull request has the
identifier of the event repository. -/
def qualifies (repoID : Int) (pr : Option github.PullRequest) : Bool :=
  decide (github.Repository.GetID (github.PullRequestBranch.GetRepo (github.PullRequest.GetBase pr))
    = repoID)

/-- The results of the evaluator when it is run on a list of calls one after
the other, starting in state `s`. -/
def evalResults {σ Ctx ε : Type} (ev : σ → EvalCall Ctx → Option ε × σ) :
    σ → List (EvalCall Ctx) → List (Option ε)
  | _, [] => []
  | s, c :: cs => (ev s c).1 :: evalResults ev (ev s c).2 cs

/-- The number of failed evaluations among a list of results. -/
def failureCount {ε : Type} (rs : List (Option ε)) : Nat :=
  (rs.filter Option.isSome).length

/-- The pull requests attached to the check run of an event (none when the
check run is absent). -/
def associatedPullRequests (event : github.CheckRunEvent) : List (Option github.PullRequest) :=
  match event.GetCheckRun with
  | none => []
  | some checkRun => checkRun.PullRequests

/-- The associated pull requests that pass the filter of the loop, in the
order of delivery. -/
def qualifying (event : github.CheckRunEvent) : List (Option github.PullRequest) :=
  (associatedPullRequests event).filter (qualifies (github.Repository.GetID event.GetRepo))

/-- The evaluator calls that the qualifying pull requests of an event give
rise to, in the order of delivery. -/
def expectedCalls {σ Ctx ε : Type} (h : Base σ Ctx ε) (ctx : Ctx)
    (event : github.CheckRunEvent) : List (EvalCall Ctx) :=
  (qualifying event).map
    (mkCall (h.PrepareRepoContext ctx (h.GetInstallationIDFromEvent event) event.GetRepo)
      (h.GetInstallationIDFromEvent event)
      (github.User.GetLogin (github.Repository.GetOwner event.GetRepo))
      (github.Repository.GetName event.GetRepo))

/-- The event is one the handler acts on. -/
def actionable (event : github.CheckRunEvent) : Prop :=
  event.GetAction = "completed" ∧ github.CheckRun.GetConclusion event.GetCheckRun = "success"

instance (event : github.CheckRunEvent) : Decidable (actionable event) := by
  unfold actionable; infer_instance

/-- The debug entries of a trace, in order. -/
def debugLogs {Ctx ε : Type} (t : List (Effect Ctx ε)) : List (LogEntry ε) :=
  (logs t).filter (fun e => decide (e.level = Level.debug))

/-- The error entries of a trace, in order. -/
def errorLogs {Ctx ε : Type} (t : List (Effect Ctx ε)) : List (LogEntry ε) :=
  (logs t).filter (fun e => decide (e.level = Level.error))

/-- The entry the loop writes when it skips `pr`. -/
def skipEntry {ε : Type} (pr : Option github.PullRequest) : LogEntry ε :=
  { level := Level.debug, err := none,
    msg := skipMsg (github.PullRequest.GetNumber pr)
      (github.Repository.GetURL (github.PullRequestBranch.GetRepo (github.PullRequest.GetBase pr))) }

/-- The entry the loop writes when the evaluation of `pr` fails with `err`. -/
def failEntry {ε : Type} (commitSHA : String) (pr : Option github.PullRequest) (err : ε) :
    LogEntry ε :=
  { level := Level.error, err := some err,
    msg := failMsg (github.PullRequest.GetNumber pr) commitSHA }

/-- The error entries for a list of evaluated pull requests paired with the
results of their evaluations: one entry per failed evaluation. -/
def failEntries {ε : Type} (commitSHA : String) :
    List (Option github.PullRequest × Option ε) → List (LogEntry ε)
  | [] => []
  | (pr, some err) :: t => failEntry commitSHA pr err :: failEntries commitSHA t
  | (_, none) :: t => failEntries commitSHA t

/-- The log entries that a walk over `prs` gives, the evaluator starting in
state `s`: a debug entry for a pull request that does not pass the filter, an
error entry for one whose evaluation fails, nothing for one whose evaluation
succeeds. -/
def logsOf {σ Ctx ε : Type} (ev : σ → EvalCall Ctx → Option ε × σ)
    (mk : Option github.PullRequest → EvalCall Ctx) (repoID : Int) (commitSHA : String) :
    σ → List (Option github.PullRequest) → List (LogEntry ε)
  | _, [] => []
  | s, pr :: rest =>
    if qualifies repoID pr then
      match (ev s (mk pr)).1 with
      | some err => failEntry commitSHA pr err :: logsOf ev mk repoID commitSHA (ev s (mk pr)).2 rest
      | none => logsOf ev mk repoID commitSHA (ev s (mk pr)).2 rest
    else
      skipEntry pr :: logsOf ev mk repoID commitSHA s rest

/-- The associated pull requests that the loop skips, in the order of
delivery. -/
def skipped (event : github.CheckRunEvent) : List (Option github.PullRequest) :=
  (associatedPullRequests event).filter
    (fun pr => !qualifies (github.Repository.GetID event.GetRepo) pr)

/-- The event with the pull requests whose base repository identifier differs
from the identifier of the event repository removed from its check run. -/
def withoutForeign (event : github.CheckRunEvent) : github.CheckRunEvent :=
  { event with
    CheckRun := event.CheckRun.map (fun checkRun =>
      { checkRun with
        PullRequests :=
          checkRun.PullRequests.filter (qualifies (github.Repository.GetID event.GetRepo)) }) }

/-- The repository of the event, or its identifier, is absent. -/
def repoIDAbsent (event : github.CheckRunEvent) : Bool :=
  match event.Repo with
  | none => true
  | some repo => repo.ID.isNone

/-- The base of the pull request, its repository, or the identifier of that
repository is absent. -/
def baseIDAbsent (pr : github.PullRequest) : Bool :=
  match pr.Base with
  | none => true
  | some branch =>
    match branch.Repo with
    | none => true
    | some repo => repo.ID.isNone

/-! ## Concrete deliveries -/

namespace scenario

/-- The repository `acme/widgets`, identifier 1. -/
def widgets : github.Repository :=
  { ID := some 1, Owner := some { Login := some "acme" }, Name := some "widgets",
    URL := some "https://api.github.com/repos/acme/widgets" }

/-- A fork of the repository, identifier 2. -/
def fork : github.Repository :=
  { ID := some 2, Owner := some { Login := some "other" }, Name := some "widgets",
    URL := some "https://api.github.com/repos/other/widgets" }

/-- Pull request 5, whose base is `acme/widgets`. -/
def pr5 : github.PullRequest := { Number := some 5, Base := some { Repo := some widgets } }

/-- Pull request 9, whose base is the fork. -/
def pr9 : github.PullRequest := { Number := some 9, Base := some { Repo := some fork } }

/-- A successful completed check run on `acme/widgets` that names pull
requests 5 and 9. -/
def success : github.CheckRunEvent :=
  { CheckRun := some { HeadSHA := some "abc123", Conclusion := some "success",
                       PullRequests := [some pr5, some pr9] }
    Action := some "completed"
    Repo := some widgets
    Installation := some { ID := some 42 } }

/-- The same delivery with conclusion `failure`. -/
def failure : github.CheckRunEvent :=
  { success with
    CheckRun := some { HeadSHA := some "abc123", Conclusion := some "failure",
                       PullRequests := [some pr5, some pr9] } }

/-- A successful completed check run with every optional part absent: no
repository, no installation, a nil entry in the pull request list and pull
requests without base or base repository. -/
def sparse : github.CheckRunEvent :=
  { CheckRun := some { HeadSHA := none, Conclusion := some "success",
                       PullRequests := [none, some { Number := none, Base := none },
                                        some { Number := some 3, Base := some { Repo := none } },
                                        some pr9] }
    Action := some "completed"
    Repo := none
    Installation := none }

/-- A successful completed check run whose only pull request targets the
fork. -/
def foreign : github.CheckRunEvent :=
  { success with
    CheckRun := some { HeadSHA := some "abc123", Conclusion := some "success",
                       PullRequests := [some pr9] } }

/-- A successful completed check run without pull requests. -/
def bare : github.CheckRunEvent :=
  { success with
    CheckRun := some { HeadSHA := some "abc123", Conclusion := some "success",
                       PullRequests := [] } }

/-- A completed delivery without check run, repository or installation. -/
def hollow : github.CheckRunEvent :=
  { CheckRun := none, Action := some "completed", Repo := none, Installation := none }

/-- A decoder that rejects the empty payload and answers `event` otherwise. -/
def decoder (event : github.CheckRunEvent) : List (Fin 256) → Except String github.CheckRunEvent
  | [] => Except.error "unexpected end of JSON input"
  | _ :: _ => Except.ok event

/-- Collaborators whose evaluator fails exactly on the pull request numbers
listed in its state. -/
def base (event : github.CheckRunEvent) : Base (List Int) Unit String :=
  { Unmarshal := decoder event
    GetInstallationIDFromEvent := fun e =>
      match e.Installation with
      | none => 0
      | some i => i.ID.getD 0
    PrepareRepoContext := fun c _ _ => c
    Evaluate := fun failing call =>
      if call.loc.Number ∈ failing then (some "evaluation failed", failing) else (none, failing) }

/-- A one-byte payload. -/
def payload : List (Fin 256) := [0]

/-- The collaborators of `base success` with a decoder that answers `success`
for a one-byte payload and the same event without its foreign pull requests
for a longer one. -/
def redelivery : Base (List Int) Unit String :=
  { base success with
    Unmarshal := fun bytes =>
      match bytes with
      | [] => Except.error "unexpected end of JSON input"
      | [_] => Except.ok success
      | _ :: _ :: _ => Except.ok (withoutForeign success) }

/-- A pull request with a number and a base branch without repository. -/
def orphan : github.PullRequest := { Number := some 3, Base := some { Repo := none } }

end scenario

/-! ## Lemmas on the trace observations -/

theorem calls_append {Ctx ε : Type} (a b : List (Effect Ctx ε)) :
    calls (a ++ b) = calls a ++ calls b := by
  induction a with
  | nil => rfl
  | cons e t ih => cases e <;> simp [calls, ih]

theorem failureCount_cons {ε : Type} (r : Option ε) (rs : List (Option ε)) :
    failureCount (r :: rs) = (if r.isSome then 1 else 0) + failureCount rs := by
  cases r <;> simp [failureCount, Nat.add_comm]

/-! ## The loop -/

section loop

variable {σ Ctx ε : Type} (h : Base σ Ctx ε) (ctx : Ctx) (installationID repoID : Int)
  (ownerName repoName commitSHA : String)

theorem loopBody_skip (st : LoopState σ Ctx ε) (pr : Option github.PullRequest)
    (hq : qualifies repoID pr = false) :
    let st1 := loopBody h ctx installationID repoID ownerName repoName commitSHA st pr
    st1.evaluationFailures = st.evaluationFailures ∧ st1.evaluator = st.evaluator ∧
      calls st1.trace = calls st.trace := by
  have hne : github.Repository.GetID
      (github.PullRequestBranch.GetRepo (github.PullRequest.GetBase pr)) ≠ repoID := by
    simpa [qualifies] using hq
  simp [loopBody, hne, calls_append, calls]

theorem loopBody_eval (st : LoopState σ Ctx ε) (pr : Option github.PullRequest)
    (hq : qualifies repoID pr = true) :
    let call := mkCall ctx installationID ownerName repoName pr
    let st1 := loopBody h ctx installationID repoID ownerName repoName commitSHA st pr
    st1.evaluationFailures =
        st.evaluationFailures + (if (h.Evaluate st.evaluator call).1.isSome then 1 else 0) ∧
      st1.evaluator = (h.Evaluate st.evaluator call).2 ∧
      calls st1.trace = calls st.trace ++ [call] := by
  have heq : github.Repository.GetID
      (github.PullRequestBranch.GetRepo (github.PullRequest.GetBase pr)) = repoID := by
    simpa [qualifies] using hq
  simp only [loopBody, heq, ne_eq, not_true_eq_false, if_false]
  rcases hres : h.Evaluate st.evaluator (mkCall ctx installationID ownerName repoName pr)
    with ⟨r, s1⟩
  cases r <;> simp [calls_append, calls]

theorem loop_spec (prs : List (Option github.PullRequest)) (st : LoopState σ Ctx ε) :
    let cs := (prs.filter (qualifies repoID)).map (mkCall ctx installationID ownerName repoName)
    let st1 := prs.foldl (loopBody h ctx installationID repoID ownerName repoName commitSHA) st
    st1.evaluationFailures =
        st.evaluationFailures + failureCount (evalResults h.Evaluate st.evaluator cs) ∧
      calls st1.trace = calls st.trace ++ cs := by
  induction prs generalizing st with
  | nil => simp [evalResults, failureCount]
  | cons pr rest ih =>
    cases hq : qualifies repoID pr with
    | false =>
      obtain ⟨h1, h2, h3⟩ :=
        loopBody_skip h ctx installationID repoID ownerName repoName commitSHA st pr hq
      have := ih (loopBody h ctx installationID repoID ownerName repoName commitSHA st pr)
      simp only [List.foldl_cons, List.filter_cons, hq] at this ⊢
      rw [h1, h2, h3] at this
      simpa using this
    | true =>
      obtain ⟨h1, h2, h3⟩ :=
        loopBody_eval h ctx installationID repoID ownerName repoName commitSHA st pr hq
      have := ih (loopBody h ctx installationID repoID ownerName repoName commitSHA st pr)
      simp only [List.foldl_cons, List.filter_cons, hq, if_true, List.map_cons] at this ⊢
      rw [h1, h2, h3] at this
      simp only [evalResults, failureCount_cons]
      refine ⟨?_, ?_⟩
      · rw [this.1]; omega
      · rw [this.2]; simp

end loop

/-! ## The log entries of the loop -/

section looplogs

variable {σ Ctx ε : Type}

theorem logs_append (a b : List (Effect Ctx ε)) : logs (a ++ b) = logs a ++ logs b := by
  induction a with
  | nil => rfl
  | cons e t ih => cases e <;> simp [logs, ih]

theorem loop_logs (h : Base σ Ctx ε) (ctx : Ctx) (installationID repoID : Int)
    (ownerName repoName commitSHA : String)
    (prs : List (Option github.PullRequest)) (st : LoopState σ Ctx ε) :
    logs (prs.foldl (loopBody h ctx installationID repoID ownerName repoName commitSHA) st).trace =
      logs st.trace ++
        logsOf h.Evaluate (mkCall ctx installationID ownerName repoName) repoID commitSHA
          st.evaluator prs := by
  induction prs generalizing st with
  | nil => simp [logsOf]
  | cons pr rest ih =>
    rw [List.foldl_cons, ih]
    cases hq : qualifies repoID pr with
    | false =>
      have hne : github.Repository.GetID
          (github.PullRequestBranch.GetRepo (github.PullRequest.GetBase pr)) ≠ repoID := by
        simpa [qualifies] using hq
      simp [loopBody, hne, logsOf, hq, logs_append, logs, skipEntry]
    | true =>
      have heq : github.Repository.GetID
          (github.PullRequestBranch.GetRepo (github.PullRequest.GetBase pr)) = repoID := by
        simpa [qualifies] using hq
      simp only [loopBody, heq, ne_eq, not_true_eq_false, if_false, logsOf, hq, if_true]
      rcases hres : h.Evaluate st.evaluator (mkCall ctx installationID ownerName repoName pr)
        with ⟨r, s1⟩
      cases r <;> simp [logs_append, logs, failEntry]

variable (ev : σ → EvalCall Ctx → Option ε × σ) (mk : Option github.PullRequest → EvalCall Ctx)
  (repoID : Int) (commitSHA : String)

theorem logsOf_debug (s : σ) (prs : List (Option github.PullRequest)) :
    (logsOf ev mk repoID commitSHA s prs).filter (fun e => decide (e.level = Level.debug)) =
      (prs.filter (fun pr => !qualifies repoID pr)).map skipEntry := by
  induction prs generalizing s with
  | nil => simp [logsOf]
  | cons pr rest ih =>
    cases hq : qualifies repoID pr with
    | false => simp [logsOf, hq, ih, skipEntry]
    | true =>
      cases hr : (ev s (mk pr)).1 with
      | none => simp [logsOf, hq, hr, ih]
      | some err => simp [logsOf, hq, hr, ih, failEntry]

theorem logsOf_error (s : σ) (prs : List (Option github.PullRequest)) :
    (logsOf ev mk repoID commitSHA s prs).filter (fun e => decide (e.level = Level.error)) =
      failEntries commitSHA
        ((prs.filter (qualifies repoID)).zip
          (evalResults ev s ((prs.filter (qualifies repoID)).map mk))) := by
  induction prs generalizing s with
  | nil => simp [logsOf, evalResults, failEntries]
  | cons pr rest ih =>
    cases hq : qualifies repoID pr with
    | false => simp [logsOf, hq, ih, skipEntry]
    | true =>
      cases hr : (ev s (mk pr)).1 with
      | none => simp [logsOf, hq, hr, ih, evalResults, failEntries]
      | some err => simp [logsOf, hq, hr, ih, evalResults, failEntries, failEntry]

theorem logsOf_error_length (s : σ) (prs : List (Option github.PullRequest)) :
    ((logsOf ev mk repoID commitSHA s prs).filter
        (fun e => decide (e.level = Level.error))).length =
      failureCount (evalResults ev s ((prs.filter (qualifies repoID)).map mk)) := by
  induction prs generalizing s with
  | nil => simp [logsOf, evalResults, failureCount]
  | cons pr rest ih =>
    cases hq : qualifies repoID pr with
    | false => simp [logsOf, hq, ih, skipEntry]
    | true =>
      cases hr : (ev s (mk pr)).1 with
      | none => simp [logsOf, hq, hr, ih, evalResults, failureCount_cons]
      | some err =>
        simp [logsOf, hq, hr, ih, evalResults, failureCount_cons, failEntry, Nat.add_comm]

theorem logsOf_length (s : σ) (prs : List (Option github.PullRequest)) :
    (logsOf ev mk repoID commitSHA s prs).length =
      (prs.filter (fun pr => !qualifies repoID pr)).length +
        failureCount (evalResults ev s ((prs.filter (qualifies repoID)).map mk)) := by
  induction prs generalizing s with
  | nil => simp [logsOf, evalResults, failureCount]
  | cons pr rest ih =>
    cases hq : qualifies repoID pr with
    | false => simp [logsOf, hq, ih]; omega
    | true =>
      cases hr : (ev s (mk pr)).1 with
      | none => simp [logsOf, hq, hr, ih, evalResults, failureCount_cons]
      | some err =>
        simp [logsOf, hq, hr, ih, evalResults, failureCount_cons]; omega

end looplogs

/-! ## The handler after decoding -/

section decoded

variable {σ Ctx ε : Type} (h : Base σ Ctx ε) (s : σ) (ctx : Ctx)

theorem actionable_checkRun (event : github.CheckRunEvent) (hact : actionable event) :
    ∃ checkRun, event.GetCheckRun = some checkRun := by
  cases hcr : event.GetCheckRun with
  | none =>
    have := hact.2
    rw [hcr] at this
    simp [github.CheckRun.GetConclusion] at this
  | some checkRun => exact ⟨checkRun, rfl⟩

theorem handleEvent_skip (event : github.CheckRunEvent) (hn : ¬ actionable event) :
    handleEvent h s ctx event = { outcome := Outcome.returned none, evaluator := s, trace := [] } := by
  have hg : event.GetAction ≠ "completed" ∨
      github.CheckRun.GetConclusion event.GetCheckRun ≠ "success" := by
    by_contra hc
    push_neg at hc
    exact hn hc
  simp only [handleEvent, hg, if_true]

theorem handleEvent_run (event : github.CheckRunEvent) (hact : actionable event) :
    calls (handleEvent h s ctx event).trace = expectedCalls h ctx event ∧
      (handleEvent h s ctx event).outcome =
        (if failureCount (evalResults h.Evaluate s (expectedCalls h ctx event)) = 0 then
          Outcome.returned none
        else
          Outcome.returned (some (GoError.errorf
            (batchMsg (failureCount (evalResults h.Evaluate s (expectedCalls h ctx event))))))) := by
  obtain ⟨checkRun, hcr⟩ := actionable_checkRun event hact
  have hg : ¬ (event.GetAction ≠ "completed" ∨
      github.CheckRun.GetConclusion event.GetCheckRun ≠ "success") := by
    simp [hact.1, hact.2]
  obtain ⟨h1, h2⟩ := loop_spec h
    (h.PrepareRepoContext ctx (h.GetInstallationIDFromEvent event) event.GetRepo)
    (h.GetInstallationIDFromEvent event) (github.Repository.GetID event.GetRepo)
    (github.User.GetLogin (github.Repository.GetOwner event.GetRepo))
    (github.Repository.GetName event.GetRepo)
    (github.CheckRun.GetHeadSHA (some checkRun)) checkRun.PullRequests
    { evaluationFailures := 0, evaluator := s
      trace := [Effect.prepareRepoContext (h.GetInstallationIDFromEvent event) event.GetRepo] }
  have hexp : expectedCalls h ctx event =
      (checkRun.PullRequests.filter (qualifies (github.Repository.GetID event.GetRepo))).map
        (mkCall (h.PrepareRepoContext ctx (h.GetInstallationIDFromEvent event) event.GetRepo)
          (h.GetInstallationIDFromEvent event)
          (github.User.GetLogin (github.Repository.GetOwner event.GetRepo))
          (github.Repository.GetName event.GetRepo)) := by
    simp [expectedCalls, qualifying, associatedPullRequests, hcr]
  rw [hexp]
  simp only [Nat.zero_add, calls, List.nil_append] at h1 h2
  unfold handleEvent
  rw [if_neg hg]
  simp only [hcr]
  split <;> rename_i hz
  · rw [h1] at hz
    simp only [hz, if_true, and_true]
    exact h2
  · rw [h1] at hz
    simp only [hz, if_false]
    exact ⟨h2, by rw [h1]⟩

end decoded

/-! ## The log entries of a run -/

section runlogs

variable {σ Ctx ε : Type} (h : Base σ Ctx ε) (s : σ) (ctx : Ctx)

theorem handleEvent_logs (event : github.CheckRunEvent) (hact : actionable event) :
    logs (handleEvent h s ctx event).trace =
      logsOf h.Evaluate
        (mkCall (h.PrepareRepoContext ctx (h.GetInstallationIDFromEvent event) event.GetRepo)
          (h.GetInstallationIDFromEvent event)
          (github.User.GetLogin (github.Repository.GetOwner event.GetRepo))
          (github.Repository.GetName event.GetRepo))
        (github.Repository.GetID event.GetRepo)
        (github.CheckRun.GetHeadSHA event.GetCheckRun) s (associatedPullRequests event) := by
  obtain ⟨checkRun, hcr⟩ := actionable_checkRun event hact
  have hg : ¬ (event.GetAction ≠ "completed" ∨
      github.CheckRun.GetConclusion event.GetCheckRun ≠ "success") := by
    simp [hact.1, hact.2]
  unfold handleEvent
  rw [if_neg hg]
  simp only [hcr, associatedPullRequests]
  split <;> simp [loop_logs, logs]

theorem failEntries_eq_filterMap (commitSHA : String)
    (l : List (Option github.PullRequest × Option ε)) :
    failEntries commitSHA l =
      l.filterMap (fun x => x.2.map (fun err =>
        ({ level := Level.error, err := some err,
           msg := "Failed to evaluate pull request '" ++
             toString (github.PullRequest.GetNumber x.1) ++ "' for SHA '" ++ commitSHA ++ "'" }
          : LogEntry ε))) := by
  induction l with
  | nil => rfl
  | cons x t ih =>
    obtain ⟨pr, r⟩ := x
    cases r with
    | none => simp [failEntries, ih]
    | some err => simp [failEntries, ih, failEntry, failMsg]

theorem withoutForeign_qualifying (event : github.CheckRunEvent) :
    qualifying (withoutForeign event) = qualifying event := by
  cases hcr : event.CheckRun with
  | none => simp [qualifying, associatedPullRequests, withoutForeign,
      github.CheckRunEvent.GetCheckRun, github.CheckRunEvent.GetRepo, hcr]
  | some checkRun => simp [qualifying, associatedPullRequests, withoutForeign,
      github.CheckRunEvent.GetCheckRun, github.CheckRunEvent.GetRepo, hcr, List.filter_filter]

theorem withoutForeign_actionable (event : github.CheckRunEvent) (hact : actionable event) :
    actionable (withoutForeign event) := by
  obtain ⟨checkRun, hcr⟩ := actionable_checkRun event hact
  have h1 := hact.1
  have h2 := hact.2
  simp only [github.CheckRunEvent.GetCheckRun] at hcr
  simp only [github.CheckRunEvent.GetCheckRun, hcr, github.CheckRun.GetConclusion,
    github.CheckRunEvent.GetAction] at h1 h2
  simp only [actionable, withoutForeign, github.CheckRunEvent.GetAction,
    github.CheckRunEvent.GetCheckRun, hcr, Option.map_some', github.CheckRun.GetConclusion]
  exact ⟨h1, h2⟩

end runlogs

/-! ## The claims -/

section claims

variable {σ Ctx ε : Type}

/-- C1: when the decoded event has action `completed` and conclusion `success`,
the pull requests handed to the evaluator are exactly the associated pull
requests whose base repository identifier equals the identifier of the event
repository, in the order of delivery, whatever the evaluator does. -/
theorem handle_evaluates_matching_pull_requests (h : Base σ Ctx ε) (s : σ) (ctx : Ctx)
    (eventType deliveryID : String) (payload : List (Fin 256)) (event : github.CheckRunEvent)
    (hdec : h.Unmarshal payload = Except.ok event)
    (haction : event.GetAction = "completed")
    (hconclusion : github.CheckRun.GetConclusion event.GetCheckRun = "success") :
    ∃ checkRun, event.GetCheckRun = some checkRun ∧
      (calls (Handle h s ctx eventType deliveryID payload).trace).map (fun c => c.loc.Value) =
        checkRun.PullRequests.filter (fun pr => decide
          (github.Repository.GetID (github.PullRequestBranch.GetRepo (github.PullRequest.GetBase pr))
            = github.Repository.GetID event.GetRepo)) := by
  obtain ⟨checkRun, hcr⟩ := actionable_checkRun event ⟨haction, hconclusion⟩
  refine ⟨checkRun, hcr, ?_⟩
  have hrun := (handleEvent_run h s ctx event ⟨haction, hconclusion⟩).1
  simp only [Handle, hdec, hrun, expectedCalls, qualifying, associatedPullRequests, hcr,
    List.map_map]
  have hid : ((fun c : EvalCall Ctx => c.loc.Value) ∘
      mkCall (h.PrepareRepoContext ctx (h.GetInstallationIDFromEvent event) event.GetRepo)
        (h.GetInstallationIDFromEvent event)
        (github.User.GetLogin (github.Repository.GetOwner event.GetRepo))
        (github.Repository.GetName event.GetRepo)) = id := by
    funext pr; rfl
  rw [hid, List.map_id]
  rfl

/-- The scenario of C1: pull requests 5 (base 1) and 9 (base 2) on repository 1
give exactly one evaluation, for pull request 5. -/
theorem handle_evaluates_matching_pull_requests_witness :
    (scenario.base scenario.success).Unmarshal scenario.payload = Except.ok scenario.success ∧
    scenario.success.GetAction = "completed" ∧
    github.CheckRun.GetConclusion scenario.success.GetCheckRun = "success" ∧
    (∃ checkRun, scenario.success.GetCheckRun = some checkRun ∧
      (calls (Handle (scenario.base scenario.success) [5] () "check_run" "d1"
          scenario.payload).trace).map (fun c => c.loc.Value) =
        checkRun.PullRequests.filter (fun pr => decide
          (github.Repository.GetID (github.PullRequestBranch.GetRepo (github.PullRequest.GetBase pr))
            = github.Repository.GetID scenario.success.GetRepo))) ∧
    (calls (Handle (scenario.base scenario.success) [5] () "check_run" "d1"
        scenario.payload).trace).map (fun c => c.loc.Value) = [some scenario.pr5] :=
  ⟨rfl, rfl, rfl,
    handle_evaluates_matching_pull_requests (scenario.base scenario.success) [5] ()
      "check_run" "d1" scenario.payload scenario.success rfl rfl rfl,
    by decide⟩

/-- C2: when the decoded event has an action other than `completed` or a
conclusion other than `success` (absent values read as the empty string), the
handler returns nil and never calls the evaluator. -/
theorem handle_ignores_other_events (h : Base σ Ctx ε) (s : σ) (ctx : Ctx)
    (eventType deliveryID : String) (payload : List (Fin 256)) (event : github.CheckRunEvent)
    (hdec : h.Unmarshal payload = Except.ok event)
    (hother : event.GetAction ≠ "completed" ∨
      github.CheckRun.GetConclusion event.GetCheckRun ≠ "success") :
    (Handle h s ctx eventType deliveryID payload).outcome = Outcome.returned none ∧
      calls (Handle h s ctx eventType deliveryID payload).trace = [] := by
  have hn : ¬ actionable event := by
    rintro ⟨h1, h2⟩
    rcases hother with h3 | h3
    · exact h3 h1
    · exact h3 h2
  simp only [Handle, hdec, handleEvent_skip h s ctx event hn, calls, and_self]

/-- The scenario of C2: conclusion `failure` gives nil and no evaluation. -/
theorem handle_ignores_other_events_witness :
    (scenario.base scenario.failure).Unmarshal scenario.payload = Except.ok scenario.failure ∧
    (scenario.failure.GetAction ≠ "completed" ∨
      github.CheckRun.GetConclusion scenario.failure.GetCheckRun ≠ "success") ∧
    (Handle (scenario.base scenario.failure) [5] () "check_run" "d1"
        scenario.payload).outcome = Outcome.returned none ∧
    calls (Handle (scenario.base scenario.failure) [5] () "check_run" "d1"
        scenario.payload).trace = [] :=
  ⟨rfl, Or.inr (by decide),
    handle_ignores_other_events (scenario.base scenario.failure) [5] () "check_run" "d1"
      scenario.payload scenario.failure rfl (Or.inr (by decide))⟩

/-- C10: the handler registers for exactly one event type, `check_run`. -/
theorem handles_check_run_only : Handles = ["check_run"] ∧ Handles.length = 1 :=
  ⟨rfl, rfl⟩

/-- C3: when the evaluator fails on K of the N qualifying pull requests of an
actionable event, with K at least 1, the handler returns a non-nil error and
has still called the evaluator once for each of the N qualifying pull
requests, in order. -/
theorem handle_isolates_failures (h : Base σ Ctx ε) (s : σ) (ctx : Ctx)
    (eventType deliveryID : String) (payload : List (Fin 256)) (event : github.CheckRunEvent)
    (hdec : h.Unmarshal payload = Except.ok event)
    (haction : event.GetAction = "completed")
    (hconclusion : github.CheckRun.GetConclusion event.GetCheckRun = "success")
    (K : Nat)
    (hK : failureCount (evalResults h.Evaluate s (expectedCalls h ctx event)) = K)
    (hpos : 1 ≤ K) :
    (∃ err, (Handle h s ctx eventType deliveryID payload).outcome = Outcome.returned (some err)) ∧
      (calls (Handle h s ctx eventType deliveryID payload).trace).map (fun c => c.loc.Value) =
        qualifying event ∧
      (calls (Handle h s ctx eventType deliveryID payload).trace).length =
        (qualifying event).length ∧
      K ≤ (qualifying event).length := by
  obtain ⟨hcalls, hout⟩ := handleEvent_run h s ctx event ⟨haction, hconclusion⟩
  have hne : failureCount (evalResults h.Evaluate s (expectedCalls h ctx event)) ≠ 0 := by omega
  rw [if_neg hne] at hout
  have hlen : ∀ (t : σ) (cs : List (EvalCall Ctx)),
      failureCount (evalResults h.Evaluate t cs) ≤ cs.length := by
    intro t cs
    induction cs generalizing t with
    | nil => simp [evalResults, failureCount]
    | cons c cs ih =>
      have := ih (h.Evaluate t c).2
      simp only [evalResults, failureCount_cons, List.length_cons]
      split <;> omega
  have hK2 := hlen s (expectedCalls h ctx event)
  simp only [Handle, hdec, hcalls, hout]
  refine ⟨⟨_, rfl⟩, ?_, ?_, ?_⟩
  · simp only [expectedCalls, List.map_map]
    exact (List.map_congr_left (fun pr _ => rfl)).trans (List.map_id _)
  · simp [expectedCalls]
  · rw [← hK]
    simpa [expectedCalls] using hK2

/-- A delivery with three qualifying pull requests, the first two of which
fail: the third is still evaluated and an error is returned. -/
theorem handle_isolates_failures_witness :
    (∃ err, (Handle (scenario.base scenario.sparse) [0] () "check_run" "d1"
        scenario.payload).outcome = Outcome.returned (some err)) ∧
      (calls (Handle (scenario.base scenario.sparse) [0] () "check_run" "d1"
          scenario.payload).trace).map (fun c => c.loc.Value) = qualifying scenario.sparse ∧
      (calls (Handle (scenario.base scenario.sparse) [0] () "check_run" "d1"
          scenario.payload).trace).length = (qualifying scenario.sparse).length ∧
      2 ≤ (qualifying scenario.sparse).length :=
  handle_isolates_failures (scenario.base scenario.sparse) [0] () "check_run" "d1"
    scenario.payload scenario.sparse rfl rfl rfl 2 (by decide) (by decide)

/-- C4: when at least one evaluation of an actionable event fails, the
returned error is `failed to evaluate K pull requests`, K being the number of
evaluator calls that returned an error; nothing of the individual errors
enters the message. -/
theorem handle_reports_failure_count (h : Base σ Ctx ε) (s : σ) (ctx : Ctx)
    (eventType deliveryID : String) (payload : List (Fin 256)) (event : github.CheckRunEvent)
    (hdec : h.Unmarshal payload = Except.ok event)
    (haction : event.GetAction = "completed")
    (hconclusion : github.CheckRun.GetConclusion event.GetCheckRun = "success")
    (K : Nat)
    (hK : failureCount (evalResults h.Evaluate s (expectedCalls h ctx event)) = K)
    (hpos : 1 ≤ K) :
    (Handle h s ctx eventType deliveryID payload).outcome =
        Outcome.returned (some (GoError.errorf
          ("failed to evaluate " ++ toString K ++ " pull requests"))) ∧
      ∀ text : ε → String,
        GoError.Error text (GoError.errorf ("failed to evaluate " ++ toString K ++ " pull requests"))
          = "failed to evaluate " ++ toString K ++ " pull requests" := by
  obtain ⟨_, hout⟩ := handleEvent_run h s ctx event ⟨haction, hconclusion⟩
  have hne : failureCount (evalResults h.Evaluate s (expectedCalls h ctx event)) ≠ 0 := by omega
  rw [if_neg hne, hK] at hout
  simp only [Handle, hdec, hout]
  exact ⟨rfl, fun _ => rfl⟩

/-- The scenario of C4: only pull request 5 qualifies and its evaluation
fails, so the error reports 1 failed evaluation. -/
theorem handle_reports_failure_count_witness :
    (Handle (scenario.base scenario.success) [5] () "check_run" "d1" scenario.payload).outcome =
      Outcome.returned (some (GoError.errorf "failed to evaluate 1 pull requests")) :=
  (handle_reports_failure_count (scenario.base scenario.success) [5] () "check_run" "d1"
    scenario.payload scenario.success rfl rfl rfl 1 (by decide) (by decide)).1

/-- C5: for an actionable event the handler returns nil when no evaluation
failed, that is when no pull request qualifies (the list may be empty) or when
the evaluator succeeds on every qualifying pull request. -/
theorem handle_returns_nil_without_failure (h : Base σ Ctx ε) (s : σ) (ctx : Ctx)
    (eventType deliveryID : String) (payload : List (Fin 256)) (event : github.CheckRunEvent)
    (hdec : h.Unmarshal payload = Except.ok event)
    (haction : event.GetAction = "completed")
    (hconclusion : github.CheckRun.GetConclusion event.GetCheckRun = "success")
    (hclean : qualifying event = [] ∨
      ∀ r ∈ evalResults h.Evaluate s (expectedCalls h ctx event), r = none) :
    (Handle h s ctx eventType deliveryID payload).outcome = Outcome.returned none := by
  obtain ⟨_, hout⟩ := handleEvent_run h s ctx event ⟨haction, hconclusion⟩
  have hzero : failureCount (evalResults h.Evaluate s (expectedCalls h ctx event)) = 0 := by
    rcases hclean with hq | hall
    · simp [expectedCalls, hq, evalResults, failureCount]
    · simp only [failureCount, List.length_eq_zero, List.filter_eq_nil_iff]
      intro r hr
      simp [hall r hr]
  rw [if_pos hzero] at hout
  simp only [Handle, hdec, hout]

/-- Three deliveries for C5: no pull request at all, only a pull request
whose base is another repository, and one qualifying pull request whose
evaluation succeeds. -/
theorem handle_returns_nil_without_failure_witness :
    (Handle (scenario.base scenario.bare) [5] () "check_run" "d1" scenario.payload).outcome =
        Outcome.returned none ∧
      (Handle (scenario.base scenario.foreign) [9] () "check_run" "d1" scenario.payload).outcome =
        Outcome.returned none ∧
      (Handle (scenario.base scenario.success) [9] () "check_run" "d1" scenario.payload).outcome =
        Outcome.returned none :=
  ⟨handle_returns_nil_without_failure (scenario.base scenario.bare) [5] () "check_run" "d1"
      scenario.payload scenario.bare rfl rfl rfl (Or.inl (by decide)),
    handle_returns_nil_without_failure (scenario.base scenario.foreign) [9] () "check_run" "d1"
      scenario.payload scenario.foreign rfl rfl rfl (Or.inl (by decide)),
    handle_returns_nil_without_failure (scenario.base scenario.success) [9] () "check_run" "d1"
      scenario.payload scenario.success rfl rfl rfl (Or.inr (by decide))⟩

/-- C6: when the decoder rejects the payload with `err`, the handler returns
`err` wrapped with the message `failed to parse check_run event payload`, so
that the text of the returned error starts with that message and its cause is
`err`; nothing else happens: no context preparation, no evaluator call, no log
entry, and the evaluator state is untouched. -/
theorem handle_rejects_malformed_payload (h : Base σ Ctx ε) (s : σ) (ctx : Ctx)
    (eventType deliveryID : String) (payload : List (Fin 256)) (err : ε)
    (hdec : h.Unmarshal payload = Except.error err) :
    (Handle h s ctx eventType deliveryID payload).outcome =
        Outcome.returned (some
          (GoError.wrap (GoError.external err) "failed to parse check_run event payload")) ∧
      (∀ text : ε → String,
        GoError.Error text
            (GoError.wrap (GoError.external err) "failed to parse check_run event payload") =
          "failed to parse check_run event payload" ++ ": " ++ text err) ∧
      GoError.Cause (GoError.wrap (GoError.external err) "failed to parse check_run event payload")
        = GoError.external err ∧
      (Handle h s ctx eventType deliveryID payload).trace = [] ∧
      calls (Handle h s ctx eventType deliveryID payload).trace = [] ∧
      (Handle h s ctx eventType deliveryID payload).evaluator = s := by
  unfold Handle
  rw [hdec]
  exact ⟨rfl, fun _ => rfl, rfl, rfl, rfl, rfl⟩

/-- The empty payload is rejected by the decoder of the scenario. -/
theorem handle_rejects_malformed_payload_witness :
    (scenario.base scenario.success).Unmarshal [] = Except.error "unexpected end of JSON input" ∧
    (Handle (scenario.base scenario.success) [5] () "check_run" "d1" []).outcome =
        Outcome.returned (some (GoError.wrap (GoError.external "unexpected end of JSON input")
          "failed to parse check_run event payload")) ∧
    GoError.Error id
        (GoError.wrap (GoError.external "unexpected end of JSON input")
          "failed to parse check_run event payload") =
      "failed to parse check_run event payload: unexpected end of JSON input" ∧
    calls (Handle (scenario.base scenario.success) [5] () "check_run" "d1" []).trace = [] :=
  have hw := handle_rejects_malformed_payload (scenario.base scenario.success) [5] ()
    "check_run" "d1" [] "unexpected end of JSON input" rfl
  ⟨rfl, hw.1, hw.2.1 id, hw.2.2.2.2.1⟩

/-- C7: for an actionable event the evaluator calls are, in order, one per
qualifying pull request `pr`, each with the context returned by
`PrepareRepoContext`, the installation identifier of the event, the trigger
`TriggerStatus` and the locator made of the owner login and the name of the
event repository, the number of `pr` and `pr` itself; so every call of one
dispatch carries the same context, installation, trigger, owner and repo. -/
theorem handle_evaluate_arguments (h : Base σ Ctx ε) (s : σ) (ctx : Ctx)
    (eventType deliveryID : String) (payload : List (Fin 256)) (event : github.CheckRunEvent)
    (hdec : h.Unmarshal payload = Except.ok event)
    (haction : event.GetAction = "completed")
    (hconclusion : github.CheckRun.GetConclusion event.GetCheckRun = "success") :
    calls (Handle h s ctx eventType deliveryID payload).trace =
        (qualifying event).map (fun pr =>
          { ctx := h.PrepareRepoContext ctx (h.GetInstallationIDFromEvent event) event.GetRepo
            installationID := h.GetInstallationIDFromEvent event
            trigger := common.Trigger.TriggerStatus
            loc := { Owner := github.User.GetLogin (github.Repository.GetOwner event.GetRepo)
                     Repo := github.Repository.GetName event.GetRepo
                     Number := github.PullRequest.GetNumber pr
                     Value := pr } }) ∧
      ∀ c ∈ calls (Handle h s ctx eventType deliveryID payload).trace,
        c.ctx = h.PrepareRepoContext ctx (h.GetInstallationIDFromEvent event) event.GetRepo ∧
        c.installationID = h.GetInstallationIDFromEvent event ∧
        c.trigger = common.Trigger.TriggerStatus ∧
        c.loc.Owner = github.User.GetLogin (github.Repository.GetOwner event.GetRepo) ∧
        c.loc.Repo = github.Repository.GetName event.GetRepo := by
  have hcalls := (handleEvent_run h s ctx event ⟨haction, hconclusion⟩).1
  have hrun : calls (Handle h s ctx eventType deliveryID payload).trace =
      expectedCalls h ctx event := by
    simp only [Handle, hdec, hcalls]
  rw [hrun]
  refine ⟨rfl, ?_⟩
  intro c hc
  simp only [expectedCalls, List.mem_map] at hc
  obtain ⟨pr, _, rfl⟩ := hc
  exact ⟨rfl, rfl, rfl, rfl, rfl⟩

/-- The scenario of C7: the single call is for `acme/widgets` number 5 with
installation 42 and the status trigger. -/
theorem handle_evaluate_arguments_witness :
    calls (Handle (scenario.base scenario.success) [] () "check_run" "d1" scenario.payload).trace =
      [{ ctx := (), installationID := 42, trigger := common.Trigger.TriggerStatus,
         loc := { Owner := "acme", Repo := "widgets", Number := 5,
                  Value := some scenario.pr5 } }] :=
  (handle_evaluate_arguments (scenario.base scenario.success) [] () "check_run" "d1"
    scenario.payload scenario.success rfl rfl rfl).1

/-- The locators of the expected calls depend on the event only. -/
theorem expectedCalls_loc (h : Base σ Ctx ε) (ctx : Ctx) (event : github.CheckRunEvent) :
    (expectedCalls h ctx event).map (fun c => c.loc) =
      (qualifying event).map
        (mkLocator (github.User.GetLogin (github.Repository.GetOwner event.GetRepo))
          (github.Repository.GetName event.GetRepo)) := by
  simp only [expectedCalls, List.map_map]
  exact List.map_congr_left (fun pr _ => rfl)

/-- The locators handed to the evaluator are a function of the decoded
payload alone. -/
theorem handle_locators (h : Base σ Ctx ε) (s : σ) (ctx : Ctx)
    (eventType deliveryID : String) (payload : List (Fin 256)) :
    (calls (Handle h s ctx eventType deliveryID payload).trace).map (fun c => c.loc) =
      match h.Unmarshal payload with
      | Except.error _ => []
      | Except.ok event =>
        if actionable event then
          (qualifying event).map
            (mkLocator (github.User.GetLogin (github.Repository.GetOwner event.GetRepo))
              (github.Repository.GetName event.GetRepo))
        else [] := by
  unfold Handle
  cases hdec : h.Unmarshal payload with
  | error err => rfl
  | ok event =>
    by_cases hact : actionable event
    · simp only [hact, if_true, (handleEvent_run h s ctx event hact).1, expectedCalls_loc]
    · simp only [hact, if_false, handleEvent_skip h s ctx event hact, calls, List.map_nil]

/-- C8: two runs of the handler on one payload, decoded alike, hand the same
sequence of locators (owner, repo, number, value) to the evaluator, whatever
the two evaluators, their states, the contexts and the delivery identifiers
are; the returned error is not constrained. -/
theorem handle_targets_deterministic {σ₁ σ₂ Ctx₁ Ctx₂ : Type}
    (h₁ : Base σ₁ Ctx₁ ε) (h₂ : Base σ₂ Ctx₂ ε) (s₁ : σ₁) (s₂ : σ₂) (ctx₁ : Ctx₁) (ctx₂ : Ctx₂)
    (eventType₁ deliveryID₁ eventType₂ deliveryID₂ : String) (payload : List (Fin 256))
    (hsame : h₁.Unmarshal payload = h₂.Unmarshal payload) :
    (calls (Handle h₁ s₁ ctx₁ eventType₁ deliveryID₁ payload).trace).map (fun c => c.loc) =
      (calls (Handle h₂ s₂ ctx₂ eventType₂ deliveryID₂ payload).trace).map (fun c => c.loc) := by
  rw [handle_locators, handle_locators, hsame]

/-- A delivery and its re-delivery, the first with a failing evaluator and the
second with a succeeding one: the locators agree and only the returned errors
differ. -/
theorem handle_targets_deterministic_witness :
    (calls (Handle (scenario.base scenario.success) [5] () "check_run" "d1"
        scenario.payload).trace).map (fun c => c.loc) =
      (calls (Handle (scenario.base scenario.success) [] () "check_run" "d2"
        scenario.payload).trace).map (fun c => c.loc) ∧
    (Handle (scenario.base scenario.success) [5] () "check_run" "d1" scenario.payload).outcome ≠
      (Handle (scenario.base scenario.success) [] () "check_run" "d2" scenario.payload).outcome :=
  ⟨handle_targets_deterministic (scenario.base scenario.success) (scenario.base scenario.success)
      [5] [] () () "check_run" "d1" "check_run" "d2" scenario.payload rfl,
    by decide⟩

/-- C9: on every decoded event the handler returns: it never stops at a nil
dereference, whatever is absent from the event, and what it returns is nil or
the error that counts the failed evaluations; with no associated pull request
it returns nil. -/
theorem handle_total (h : Base σ Ctx ε) (s : σ) (ctx : Ctx)
    (eventType deliveryID : String) (payload : List (Fin 256)) (event : github.CheckRunEvent)
    (hdec : h.Unmarshal payload = Except.ok event) :
    (Handle h s ctx eventType deliveryID payload).outcome ≠ Outcome.panicked ∧
      ((Handle h s ctx eventType deliveryID payload).outcome = Outcome.returned none ∨
        ∃ K : Nat, 1 ≤ K ∧
          (Handle h s ctx eventType deliveryID payload).outcome =
            Outcome.returned (some (GoError.errorf
              ("failed to evaluate " ++ toString K ++ " pull requests")))) ∧
      (associatedPullRequests event = [] →
        (Handle h s ctx eventType deliveryID payload).outcome = Outcome.returned none) := by
  have hH : Handle h s ctx eventType deliveryID payload = handleEvent h s ctx event := by
    simp only [Handle, hdec]
  rw [hH]
  by_cases hact : actionable event
  · have hout := (handleEvent_run h s ctx event hact).2
    by_cases hz : failureCount (evalResults h.Evaluate s (expectedCalls h ctx event)) = 0
    · rw [if_pos hz] at hout
      rw [hout]
      exact ⟨by simp, Or.inl rfl, fun _ => rfl⟩
    · rw [if_neg hz] at hout
      rw [hout]
      refine ⟨by simp, Or.inr ⟨_, Nat.one_le_iff_ne_zero.mpr hz, rfl⟩, ?_⟩
      intro hnone
      exact absurd (by simp [expectedCalls, qualifying, hnone, evalResults, failureCount]) hz
  · rw [handleEvent_skip h s ctx event hact]
    exact ⟨by simp, Or.inl rfl, fun _ => rfl⟩

/-- Deliveries for C9: a successful check run without repository or
installation whose list holds a nil entry and pull requests without base, a
delivery without check run, and a successful check run without pull requests. -/
theorem handle_total_witness :
    (Handle (scenario.base scenario.sparse) [0] () "check_run" "d1" scenario.payload).outcome =
        Outcome.returned (some (GoError.errorf "failed to evaluate 2 pull requests")) ∧
      (Handle (scenario.base scenario.hollow) [0] () "check_run" "d1" scenario.payload).outcome ≠
        Outcome.panicked ∧
      (Handle (scenario.base scenario.bare) [0] () "check_run" "d1" scenario.payload).outcome =
        Outcome.returned none :=
  ⟨by decide,
    (handle_total (scenario.base scenario.hollow) [0] () "check_run" "d1" scenario.payload
      scenario.hollow rfl).1,
    (handle_total (scenario.base scenario.bare) [0] () "check_run" "d1" scenario.payload
      scenario.bare rfl).2.2 rfl⟩

/-- C11: for an actionable event the log of the handler holds, in order, one
debug entry per skipped pull request, with its number and the URL of its base
repository, and one error entry per failed evaluation, with the number of the
pull request and the head SHA of the check run; the number of error entries
is the count of the returned error (nil when there is none), and there is no
other entry, so a successful evaluation writes nothing. -/
theorem handle_log_entries (h : Base σ Ctx ε) (s : σ) (ctx : Ctx)
    (eventType deliveryID : String) (payload : List (Fin 256)) (event : github.CheckRunEvent)
    (hdec : h.Unmarshal payload = Except.ok event)
    (haction : event.GetAction = "completed")
    (hconclusion : github.CheckRun.GetConclusion event.GetCheckRun = "success") :
    debugLogs (Handle h s ctx eventType deliveryID payload).trace =
        (skipped event).map (fun pr =>
          { level := Level.debug, err := none,
            msg := "Skipping pull request '" ++ toString (github.PullRequest.GetNumber pr) ++
              "' from different repository '" ++
              github.Repository.GetURL
                (github.PullRequestBranch.GetRepo (github.PullRequest.GetBase pr)) ++ "'" }) ∧
      errorLogs (Handle h s ctx eventType deliveryID payload).trace =
        ((qualifying event).zip (evalResults h.Evaluate s (expectedCalls h ctx event))).filterMap
          (fun x => x.2.map (fun err =>
            { level := Level.error, err := some err,
              msg := "Failed to evaluate pull request '" ++
                toString (github.PullRequest.GetNumber x.1) ++ "' for SHA '" ++
                github.CheckRun.GetHeadSHA event.GetCheckRun ++ "'" })) ∧
      (errorLogs (Handle h s ctx eventType deliveryID payload).trace).length =
        failureCount (evalResults h.Evaluate s (expectedCalls h ctx event)) ∧
      (Handle h s ctx eventType deliveryID payload).outcome =
        (if (errorLogs (Handle h s ctx eventType deliveryID payload).trace).length = 0 then
          Outcome.returned none
        else
          Outcome.returned (some (GoError.errorf ("failed to evaluate " ++
            toString (errorLogs (Handle h s ctx eventType deliveryID payload).trace).length ++
            " pull requests")))) ∧
      (logs (Handle h s ctx eventType deliveryID payload).trace).length =
        (skipped event).length +
          (errorLogs (Handle h s ctx eventType deliveryID payload).trace).length := by
  have hH : Handle h s ctx eventType deliveryID payload = handleEvent h s ctx event := by
    simp only [Handle, hdec]
  have hlogs := handleEvent_logs h s ctx event ⟨haction, hconclusion⟩
  have hout := (handleEvent_run h s ctx event ⟨haction, hconclusion⟩).2
  have hlen : (errorLogs (handleEvent h s ctx event).trace).length =
      failureCount (evalResults h.Evaluate s (expectedCalls h ctx event)) := by
    rw [errorLogs, hlogs, logsOf_error_length]
    rfl
  rw [hH]
  refine ⟨?_, ?_, hlen, ?_, ?_⟩
  · rw [debugLogs, hlogs, logsOf_debug]
    rfl
  · rw [errorLogs, hlogs, logsOf_error, failEntries_eq_filterMap]
    rfl
  · rw [hlen, hout]
    rfl
  · rw [hlen, hlogs, logsOf_length]
    rfl

/-- The scenario with a failing evaluation of pull request 5: one debug entry
for pull request 9 and the URL of the fork, one error entry for pull request 5
and the head SHA, and an error that counts one failure. -/
theorem handle_log_entries_witness :
    debugLogs (Handle (scenario.base scenario.success) [5] () "check_run" "d1"
        scenario.payload).trace =
      [{ level := Level.debug, err := none,
         msg := "Skipping pull request '9' from different repository " ++
           "'https://api.github.com/repos/other/widgets'" }] ∧
    errorLogs (Handle (scenario.base scenario.success) [5] () "check_run" "d1"
        scenario.payload).trace =
      [{ level := Level.error, err := some "evaluation failed",
         msg := "Failed to evaluate pull request '5' for SHA 'abc123'" }] ∧
    (logs (Handle (scenario.base scenario.success) [5] () "check_run" "d1"
        scenario.payload).trace).length = 2 ∧
    (Handle (scenario.base scenario.success) [5] () "check_run" "d1" scenario.payload).outcome =
      Outcome.returned (some (GoError.errorf "failed to evaluate 1 pull requests")) :=
  have hw := handle_log_entries (scenario.base scenario.success) [5] () "check_run" "d1"
    scenario.payload scenario.success rfl rfl rfl
  ⟨hw.1.trans (by decide), hw.2.1.trans (by decide), by decide, by decide⟩

/-- C12: for an actionable event, removing the pull requests whose base
repository identifier differs from the identifier of the event repository
changes neither the sequence of evaluator calls nor the returned error.  The
evaluator is any state-passing function started in the same state, which
covers every evaluator whose result depends on its arguments only; the
installation lookup reads the installation of the event only. -/
theorem handle_foreign_inert (h : Base σ Ctx ε) (s : σ) (ctx : Ctx)
    (eventType deliveryID eventType' deliveryID' : String)
    (payload payload' : List (Fin 256)) (event : github.CheckRunEvent)
    (hdec : h.Unmarshal payload = Except.ok event)
    (hdec' : h.Unmarshal payload' = Except.ok (withoutForeign event))
    (hinst : ∀ e₁ e₂ : github.CheckRunEvent, e₁.Installation = e₂.Installation →
      h.GetInstallationIDFromEvent e₁ = h.GetInstallationIDFromEvent e₂)
    (haction : event.GetAction = "completed")
    (hconclusion : github.CheckRun.GetConclusion event.GetCheckRun = "success") :
    calls (Handle h s ctx eventType' deliveryID' payload').trace =
        calls (Handle h s ctx eventType deliveryID payload).trace ∧
      (Handle h s ctx eventType' deliveryID' payload').outcome =
        (Handle h s ctx eventType deliveryID payload).outcome := by
  have hact : actionable event := ⟨haction, hconclusion⟩
  have hact' := withoutForeign_actionable event hact
  have hid : h.GetInstallationIDFromEvent (withoutForeign event) =
      h.GetInstallationIDFromEvent event := hinst _ _ rfl
  have hexp : expectedCalls h ctx (withoutForeign event) = expectedCalls h ctx event := by
    unfold expectedCalls
    rw [withoutForeign_qualifying, hid]
    rfl
  obtain ⟨hc, ho⟩ := handleEvent_run h s ctx event hact
  obtain ⟨hc', ho'⟩ := handleEvent_run h s ctx (withoutForeign event) hact'
  rw [hexp] at hc' ho'
  have hH : Handle h s ctx eventType deliveryID payload = handleEvent h s ctx event := by
    simp only [Handle, hdec]
  have hH' : Handle h s ctx eventType' deliveryID' payload' =
      handleEvent h s ctx (withoutForeign event) := by
    simp only [Handle, hdec']
  rw [hH, hH', hc, hc', ho, ho']
  exact ⟨rfl, rfl⟩

/-- The scenario delivered with and without pull request 9, the evaluation of
pull request 5 failing: the same call and the same error. -/
theorem handle_foreign_inert_witness :
    calls (Handle scenario.redelivery [5] () "check_run" "d2" [0, 0]).trace =
        calls (Handle scenario.redelivery [5] () "check_run" "d1" [0]).trace ∧
      (Handle scenario.redelivery [5] () "check_run" "d2" [0, 0]).outcome =
        (Handle scenario.redelivery [5] () "check_run" "d1" [0]).outcome ∧
      associatedPullRequests (withoutForeign scenario.success) = [some scenario.pr5] :=
  have hw := handle_foreign_inert scenario.redelivery [5] () "check_run" "d1" "check_run" "d2"
    [0] [0, 0] scenario.success rfl rfl
    (fun e₁ e₂ he => by simp only [scenario.redelivery, scenario.base, he]) rfl rfl
  ⟨hw.1, hw.2, by decide⟩

/-- C13: for an actionable event whose repository, or the identifier of its
repository, is absent, the repository identifier reads as 0; an associated pull
request whose base, base repository or base repository identifier is absent
reads as 0 too, passes the filter and is handed to the evaluator instead of
being skipped; when the repository is absent the owner and repo strings of
every call are empty. -/
theorem handle_absent_ids_read_zero (h : Base σ Ctx ε) (s : σ) (ctx : Ctx)
    (eventType deliveryID : String) (payload : List (Fin 256)) (event : github.CheckRunEvent)
    (hdec : h.Unmarshal payload = Except.ok event)
    (haction : event.GetAction = "completed")
    (hconclusion : github.CheckRun.GetConclusion event.GetCheckRun = "success")
    (hrepo : repoIDAbsent event = true) :
    github.Repository.GetID event.GetRepo = 0 ∧
      (∀ pr : github.PullRequest, some pr ∈ associatedPullRequests event →
        baseIDAbsent pr = true →
          github.Repository.GetID
              (github.PullRequestBranch.GetRepo (github.PullRequest.GetBase (some pr))) = 0 ∧
            some pr ∉ skipped event ∧
            ({ ctx := h.PrepareRepoContext ctx (h.GetInstallationIDFromEvent event) event.GetRepo
               installationID := h.GetInstallationIDFromEvent event
               trigger := common.Trigger.TriggerStatus
               loc := { Owner := github.User.GetLogin (github.Repository.GetOwner event.GetRepo)
                        Repo := github.Repository.GetName event.GetRepo
                        Number := github.PullRequest.GetNumber (some pr)
                        Value := some pr } } : EvalCall Ctx) ∈
              calls (Handle h s ctx eventType deliveryID payload).trace) ∧
      (event.Repo = none →
        ∀ c ∈ calls (Handle h s ctx eventType deliveryID payload).trace,
          c.loc.Owner = "" ∧ c.loc.Repo = "") := by
  have hcalls : calls (Handle h s ctx eventType deliveryID payload).trace =
      expectedCalls h ctx event := by
    simp only [Handle, hdec, (handleEvent_run h s ctx event ⟨haction, hconclusion⟩).1]
  have hzero : github.Repository.GetID event.GetRepo = 0 := by
    cases hr : event.Repo with
    | none => simp [github.CheckRunEvent.GetRepo, github.Repository.GetID, hr]
    | some repo =>
      have hi : repo.ID = none := by simpa [repoIDAbsent, hr] using hrepo
      simp [github.CheckRunEvent.GetRepo, github.Repository.GetID, hr, hi]
  refine ⟨hzero, ?_, ?_⟩
  · intro pr hmem habs
    have hbase : github.Repository.GetID
        (github.PullRequestBranch.GetRepo (github.PullRequest.GetBase (some pr))) = 0 := by
      cases hb : pr.Base with
      | none =>
        simp [github.PullRequest.GetBase, github.PullRequestBranch.GetRepo,
          github.Repository.GetID, hb]
      | some branch =>
        cases hr : branch.Repo with
        | none =>
          simp [github.PullRequest.GetBase, github.PullRequestBranch.GetRepo,
            github.Repository.GetID, hb, hr]
        | some repo =>
          have hi : repo.ID = none := by simpa [baseIDAbsent, hb, hr] using habs
          simp [github.PullRequest.GetBase, github.PullRequestBranch.GetRepo,
            github.Repository.GetID, hb, hr, hi]
    have hq : qualifies (github.Repository.GetID event.GetRepo) (some pr) = true := by
      simp [qualifies, hbase, hzero]
    refine ⟨hbase, ?_, ?_⟩
    · simp [skipped, hq]
    · rw [hcalls]
      simp only [expectedCalls, List.mem_map]
      exact ⟨some pr, by simp [qualifying, hmem, hq], rfl⟩
  · intro hnone c hc
    rw [hcalls] at hc
    simp only [expectedCalls, List.mem_map] at hc
    obtain ⟨pr, _, rfl⟩ := hc
    simp [mkCall, mkLocator, github.CheckRunEvent.GetRepo, hnone, github.Repository.GetOwner,
      github.User.GetLogin, github.Repository.GetName]

/-- A delivery without repository: the pull request whose base branch has no
repository is handed to the evaluator with empty owner and repo strings. -/
theorem handle_absent_ids_read_zero_witness :
    github.Repository.GetID scenario.sparse.GetRepo = 0 ∧
      ({ ctx := (), installationID := 0, trigger := common.Trigger.TriggerStatus,
         loc := { Owner := "", Repo := "", Number := 3, Value := some scenario.orphan } }
          : EvalCall Unit) ∈
        calls (Handle (scenario.base scenario.sparse) [] () "check_run" "d1"
          scenario.payload).trace ∧
      some scenario.orphan ∉ skipped scenario.sparse :=
  have hw := handle_absent_ids_read_zero (scenario.base scenario.sparse) [] () "check_run" "d1"
    scenario.payload scenario.sparse rfl rfl rfl rfl
  have hp := hw.2.1 scenario.orphan (by decide) rfl
  ⟨hw.1, hp.2.2, hp.2.1⟩

end claims

end handler

end PolicyBot
